import Mathlib

/-!
Verification of the finance-tracker dashboard client
(`src/legacy-flask/static/script.js`).

The development shallowly embeds the client-side logic: calendar layout and
event placement (`renderCalendar`), chart lifecycle (`createPieChart`,
`createLineChart`), summary rendering (`loadSummary`), the transaction-form
submit handler, the category select handlers (`loadCategories` population and
the change handler), and the dashboard initialization sequence (`init`).
DOM mutation is modelled as the data the code writes (cell lists, tile
strings, effect traces); network fetches are modelled as `Option` results
(`none` is a failed fetch, i.e. a thrown/caught error).
-/

/-- A calendar date as the script observes it through a JS `Date`:
`getFullYear`, `getMonth` (0-based month) and `getDate` (1-based day). -/
structure JsDate where
  year : Nat
  month : Nat
  day : Nat
deriving DecidableEq, Repr

/-- Split a character list on the dash separator (the field structure of an
ISO `YYYY-MM-DD` date string). -/
def splitOnDash : List Char → List (List Char)
  | [] => [[]]
  | c :: cs =>
      if c = '-' then [] :: splitOnDash cs
      else
        match splitOnDash cs with
        | g :: gs => (c :: g) :: gs
        | [] => [[c]]

/-- Read a nonempty all-digit character list as a decimal number. -/
def digitsToNat : List Char → Option Nat
  | [] => none
  | cs =>
      cs.foldl
        (fun acc c =>
          acc.bind fun n => if c.isDigit then some (n * 10 + (c.toNat - 48)) else none)
        (some 0)

/-- Parsing of an ISO `YYYY-MM-DD` string, as `new Date(event.date)` does for
the ISO dates the spec assigns to `CalendarEvent.date`; the 1-based month of
the string becomes the 0-based `getMonth` value.  A string that is not three
dash-separated numeric fields (or whose fields are out of range) yields no
date, matching an `Invalid Date` whose component getters match nothing. -/
def parseIsoDate (s : String) : Option JsDate :=
  match (splitOnDash s.toList).map digitsToNat with
  | [some y, some m, some d] =>
      if 1 ≤ m && m ≤ 12 && 1 ≤ d && d ≤ 31 then some ⟨y, m - 1, d⟩ else none
  | _ => none

/-- Gregorian leap-year rule, as implemented by the JS `Date` arithmetic the
script relies on (`new Date(year, month + 1, 0).getDate()`). -/
def isLeapYear (y : Nat) : Bool :=
  y % 4 == 0 && (y % 100 != 0 || y % 400 == 0)

/-- Number of days of 0-based month `m` of year `y`
(`new Date(currentYear, currentMonth + 1, 0).getDate()` in the script). -/
def daysInMonth (y m : Nat) : Nat :=
  if m = 1 then (if isLeapYear y then 29 else 28)
  else if m = 3 ∨ m = 5 ∨ m = 8 ∨ m = 10 then 30
  else 31

/-- Month offsets of Sakamoto's weekday formula, indexed by 0-based month. -/
def sakamotoTable : List Nat := [0, 3, 2, 5, 0, 3, 5, 1, 4, 6, 2, 4]

/-- Weekday (0 = Sunday … 6 = Saturday) of day `d` of 0-based month `m` of
year `y`, the value `new Date(currentYear, currentMonth, 1).getDay()` reads
off for `d = 1`.  Sakamoto's congruence for the Gregorian calendar. -/
def dayOfWeek (y m d : Nat) : Nat :=
  let yy := if m + 1 < 3 then y - 1 else y
  (yy + yy / 4 - yy / 100 + yy / 400 + sakamotoTable.getD m 0 + d) % 7

/-- A calendar event as consumed by `renderCalendar`: the `/calendar-data`
payload entries `{date, title, amount, type}`. -/
structure CalendarEvent where
  date : String
  title : String
  amount : Rat
  type : String
deriving DecidableEq, Repr

/-- The predicate of the `events.filter` in `renderCalendar`: the event's
parsed date has this day, month and year
(`eventDate.getDate() === day && eventDate.getMonth() === currentMonth &&
eventDate.getFullYear() === currentYear`). -/
def eventMatchesDay (e : CalendarEvent) (y m d : Nat) : Bool :=
  match parseIsoDate e.date with
  | some jd => jd.day == d && jd.month == m && jd.year == y
  | none => false

/-- The `dayEvents` list of `renderCalendar`: the events filtered onto one day cell. -/
def eventsOnDay (events : List CalendarEvent) (y m d : Nat) : List CalendarEvent :=
  events.filter (fun e => eventMatchesDay e y m d)

/-- One cell of the `calendar-grid` element: a weekday header, an empty
leading cell, or a day cell carrying its matched events. -/
inductive CalendarCell where
  | header (name : String)
  | blank
  | day (d : Nat) (events : List CalendarEvent)
deriving DecidableEq, Repr

/-- Holds exactly on the leading empty cells. -/
def CalendarCell.isBlank : CalendarCell → Bool
  | .blank => true
  | _ => false

/-- Holds exactly on the numbered day cells. -/
def CalendarCell.isDay : CalendarCell → Bool
  | .day _ _ => true
  | _ => false

/-- The seven weekday header cells appended first by `renderCalendar`. -/
def headerCells : List CalendarCell :=
  (["Sun", "Mon", "Tue", "Wed", "Thu", "Fri", "Sat"]).map CalendarCell.header

/-- The body of `FinanceTracker.renderCalendar`: for the displayed month (`now`), emit the
seven headers, then `firstDay` empty cells, then one cell per day `1 ≤ day ≤
daysInMonth` carrying the events whose date matches that day. -/
def renderCalendar (now : JsDate) (events : List CalendarEvent) : List CalendarCell :=
  let firstDay := dayOfWeek now.year now.month 1
  let numDays := daysInMonth now.year now.month
  headerCells
    ++ List.replicate firstDay CalendarCell.blank
    ++ (List.range numDays).map
        (fun i => CalendarCell.day (i + 1) (eventsOnDay events now.year now.month (i + 1)))

/-- Day cells of the rendering are exactly the days `1 … daysInMonth`, each
carrying the events filtered onto it. -/
theorem mem_day_renderCalendar {now : JsDate} {events : List CalendarEvent}
    {d : Nat} {evs : List CalendarEvent} :
    CalendarCell.day d evs ∈ renderCalendar now events ↔
      1 ≤ d ∧ d ≤ daysInMonth now.year now.month ∧
        evs = eventsOnDay events now.year now.month d := by
  simp only [renderCalendar, headerCells, List.mem_append, List.mem_map,
    List.mem_replicate, List.mem_range, List.map_cons, List.map_nil,
    List.mem_cons, List.not_mem_nil, or_false, reduceCtorEq, false_or,
    false_and, and_false, CalendarCell.day.injEq]
  constructor
  · rintro ⟨i, hi, hd, hevs⟩
    refine ⟨by omega, by omega, ?_⟩
    rw [← hevs, ← hd]
  · rintro ⟨h1, h2, hevs⟩
    exact ⟨d - 1, by omega, by omega, by rw [hevs]; congr 1; omega⟩

/-- The concrete event of the spec example: a transaction dated `2024-03-15`
with amount `-42.50`. -/
def marchEvent : CalendarEvent :=
  { date := "2024-03-15", title := "Groceries", amount := -85/2, type := "expense" }

/-- C1. In every calendar rendering, a day cell for day `d` of the
displayed month contains an event exactly when the event is among the input
events and its date field parses to that day, month, and year; consequently an
event dated `2024-03-15` appears in a day cell only when the displayed month
is March 2024 and the cell is day 15, and in no other cell or month. -/
theorem calendar_event_placement
    (e : CalendarEvent) (now : JsDate) (events : List CalendarEvent)
    (d : Nat) (evs : List CalendarEvent)
    (hcell : CalendarCell.day d evs ∈ renderCalendar now events) :
    (e ∈ evs ↔ e ∈ events ∧ eventMatchesDay e now.year now.month d = true) ∧
    (e.date = "2024-03-15" →
      (e ∈ evs ↔ e ∈ events ∧ now.year = 2024 ∧ now.month = 2 ∧ d = 15)) := by
  obtain ⟨-, -, hevs⟩ := mem_day_renderCalendar.mp hcell
  subst hevs
  have hmem : ∀ y m dd, (e ∈ eventsOnDay events y m dd ↔
      e ∈ events ∧ eventMatchesDay e y m dd = true) := by
    intro y m dd
    simp [eventsOnDay, List.mem_filter]
  refine ⟨hmem _ _ _, fun hdate => ?_⟩
  rw [hmem _ _ _]
  have hparse : parseIsoDate e.date = some ⟨2024, 2, 15⟩ := by rw [hdate]; decide
  refine and_congr_right fun _ => ?_
  simp only [eventMatchesDay, hparse, Bool.and_eq_true, beq_iff_eq]
  omega

/-- C1 witness. The placement theorem applied to the concrete event and to
the March 2024 rendering: the event sits in the day-15 cell. -/
theorem calendar_event_placement_witness :
    marchEvent ∈ eventsOnDay [marchEvent] 2024 2 15 :=
  (((calendar_event_placement marchEvent ⟨2024, 2, 15⟩ [marchEvent] 15
        (eventsOnDay [marchEvent] 2024 2 15)
        (mem_day_renderCalendar.mpr ⟨by decide, by decide, rfl⟩)).2 rfl).mpr
    ⟨List.mem_singleton_self marchEvent, rfl, rfl, rfl⟩)

/-- C4. The rendering of any month is the seven headers, then exactly
`firstWeekday` leading blank cells, then exactly `daysInMonth` day cells,
with the two counts given by the Gregorian rules; in particular April 2026
(a 30-day month starting on a Wednesday) gets 3 leading blanks and 30 day
cells. -/
theorem renderCalendar_cell_counts (now : JsDate) (events : List CalendarEvent) :
    renderCalendar now events =
      headerCells
        ++ List.replicate (dayOfWeek now.year now.month 1) CalendarCell.blank
        ++ (renderCalendar now events).filter CalendarCell.isDay ∧
    ((renderCalendar now events).filter CalendarCell.isDay).length
        = daysInMonth now.year now.month ∧
    ((renderCalendar now events).filter CalendarCell.isBlank).length
        = dayOfWeek now.year now.month 1 ∧
    daysInMonth 2026 3 = 30 ∧ dayOfWeek 2026 3 1 = 3 := by
  have hhd : headerCells.filter CalendarCell.isDay = [] := rfl
  have hhb : headerCells.filter CalendarCell.isBlank = [] := rfl
  have hrd : ∀ k, (List.replicate k CalendarCell.blank).filter CalendarCell.isDay = [] := by
    intro k; simp [List.filter_replicate, CalendarCell.isDay]
  have hrb : ∀ k, (List.replicate k CalendarCell.blank).filter CalendarCell.isBlank
      = List.replicate k CalendarCell.blank := by
    intro k; simp [List.filter_replicate, CalendarCell.isBlank]
  have hmd : ∀ (f : Nat → List CalendarEvent) (n : Nat),
      ((List.range n).map (fun i => CalendarCell.day (i + 1) (f i))).filter
          CalendarCell.isDay
        = (List.range n).map (fun i => CalendarCell.day (i + 1) (f i)) := by
    intro f n
    rw [List.filter_eq_self]
    rintro a ha
    obtain ⟨i, -, rfl⟩ := List.mem_map.mp ha
    rfl
  have hmb : ∀ (f : Nat → List CalendarEvent) (n : Nat),
      ((List.range n).map (fun i => CalendarCell.day (i + 1) (f i))).filter
          CalendarCell.isBlank = [] := by
    intro f n
    rw [List.filter_eq_nil_iff]
    rintro a ha
    obtain ⟨i, -, rfl⟩ := List.mem_map.mp ha
    simp [CalendarCell.isBlank]
  refine ⟨?_, ?_, ?_, by decide, by decide⟩
  · conv_lhs => rw [renderCalendar]
    rw [renderCalendar, List.filter_append, List.filter_append, hhd, hrd, hmd]
    simp
  · rw [renderCalendar, List.filter_append, List.filter_append, hhd, hrd, hmd]
    simp
  · rw [renderCalendar, List.filter_append, List.filter_append, hhb, hrb, hmb]
    simp

/-- The `/spending-by-category` payload: parallel label/data arrays, either of
which may be absent (`data.labels || []`, `data.data || []`). -/
structure CategoryBreakdown where
  labels : Option (List String)
  data : Option (List Rat)
deriving Repr

/-- The `/monthly-trends` payload: month labels plus the income and expenses
series, each possibly absent. -/
structure MonthlyTrend where
  labels : Option (List String)
  income : Option (List Rat)
  expenses : Option (List Rat)
deriving Repr

/-- One `Chart` object: its identity, the canvas it was created on, its
configuration, and whether `destroy()` has been called on it. -/
structure ChartInstance where
  id : Nat
  canvas : String
  kind : String
  labels : List String
  datasets : List (List Rat)
  live : Bool
deriving Repr

/-- The chart bookkeeping of `FinanceTracker`: the `this.charts` map from
canvas id to the currently bound instance, every instance ever created, and
the next fresh instance identity. -/
structure ChartsState where
  charts : List (String × Nat)
  instances : List ChartInstance
  nextId : Nat
deriving Repr

/-- The constructor state `this.charts = {}`. -/
def ChartsState.empty : ChartsState := ⟨[], [], 0⟩

/-- Read `this.charts[canvasId]`. -/
def lookupChart (m : List (String × Nat)) (k : String) : Option Nat :=
  match m.find? (fun p => p.1 == k) with
  | some p => some p.2
  | none => none

/-- Write `this.charts[canvasId] = v`. -/
def setChart : List (String × Nat) → String → Nat → List (String × Nat)
  | [], k, v => [(k, v)]
  | p :: rest, k, v => if p.1 = k then (k, v) :: rest else p :: setChart rest k v

/-- Modelling of `chart.destroy()`: the instance with identity `i` stops being live. -/
def destroyChart (insts : List ChartInstance) (i : Nat) : List ChartInstance :=
  insts.map (fun c => if c.id = i then { c with live := false } else c)

/-- The shared body of `createPieChart` and `createLineChart`: if
`this.charts[canvasId]` exists, destroy it, then bind a fresh `new Chart`
to the canvas. -/
def createChart (s : ChartsState) (canvasId kind : String)
    (labels : List String) (datasets : List (List Rat)) : ChartsState :=
  let insts :=
    match lookupChart s.charts canvasId with
    | some i => destroyChart s.instances i
    | none => s.instances
  { charts := setChart s.charts canvasId s.nextId,
    instances := insts ++ [⟨s.nextId, canvasId, kind, labels, datasets, true⟩],
    nextId := s.nextId + 1 }

/-- The body of `FinanceTracker.createPieChart`: one dataset, `data.data || []`, labelled
by `data.labels || []`. -/
def createPieChart (s : ChartsState) (canvasId : String) (data : CategoryBreakdown) :
    ChartsState :=
  createChart s canvasId "pie" (data.labels.getD []) [data.data.getD []]

/-- The body of `FinanceTracker.createLineChart`: the income and expenses datasets
(`data.income || []`, `data.expenses || []`) over `data.labels || []`. -/
def createLineChart (s : ChartsState) (canvasId : String) (data : MonthlyTrend) :
    ChartsState :=
  createChart s canvasId "line" (data.labels.getD [])
    [data.income.getD [], data.expenses.getD []]

/-- One chart-render invocation of the dashboard. -/
inductive ChartOp where
  | pie (canvasId : String) (data : CategoryBreakdown)
  | line (canvasId : String) (data : MonthlyTrend)

/-- Run one chart-render invocation. -/
def applyChartOp (s : ChartsState) : ChartOp → ChartsState
  | .pie c d => createPieChart s c d
  | .line c d => createLineChart s c d

/-- The live (never-destroyed) chart instances bound to canvas `c`. -/
def liveOn (s : ChartsState) (c : String) : List ChartInstance :=
  s.instances.filter (fun inst => inst.canvas == c && inst.live)

/-- Bookkeeping invariant of the chart state: identities are below `nextId`
and duplicate-free, and every live instance is the one currently bound to its
canvas in `this.charts`. -/
def ChartsInv (s : ChartsState) : Prop :=
  (∀ inst ∈ s.instances, inst.id < s.nextId) ∧
  (s.instances.map ChartInstance.id).Nodup ∧
  (∀ inst ∈ s.instances, inst.live = true →
    lookupChart s.charts inst.canvas = some inst.id)

theorem lookupChart_cons (p : String × Nat) (rest : List (String × Nat)) (k : String) :
    lookupChart (p :: rest) k = if p.1 = k then some p.2 else lookupChart rest k := by
  by_cases h : p.1 = k
  · simp [lookupChart, List.find?, h]
  · simp [lookupChart, List.find?, h,
      show (p.1 == k) = false from beq_eq_false_iff_ne.mpr h]

theorem lookup_setChart_self (m : List (String × Nat)) (k : String) (v : Nat) :
    lookupChart (setChart m k v) k = some v := by
  induction m with
  | nil => simp [setChart, lookupChart_cons]
  | cons p rest ih =>
      by_cases h : p.1 = k
      · simp [setChart, h, lookupChart_cons]
      · simp [setChart, h, lookupChart_cons, ih]

theorem lookup_setChart_ne (m : List (String × Nat)) (k k' : String) (v : Nat)
    (h : k' ≠ k) : lookupChart (setChart m k v) k' = lookupChart m k' := by
  have hkk : ¬k = k' := fun hh => h hh.symm
  induction m with
  | nil => simp [setChart, lookupChart_cons, hkk, lookupChart]
  | cons p rest ih =>
      by_cases hp : p.1 = k
      · rw [setChart, if_pos hp, lookupChart_cons, lookupChart_cons, if_neg hkk,
          if_neg (hp ▸ hkk)]
      · by_cases hp' : p.1 = k' <;>
          simp [setChart, hp, lookupChart_cons, hp', ih, h]

theorem destroyChart_map_id (l : List ChartInstance) (i : Nat) :
    (destroyChart l i).map ChartInstance.id = l.map ChartInstance.id := by
  simp only [destroyChart, List.map_map]
  refine List.map_congr_left fun c _ => ?_
  by_cases h : c.id = i <;> simp [h]

theorem mem_destroyChart {l : List ChartInstance} {i : Nat} {inst : ChartInstance}
    (h : inst ∈ destroyChart l i) :
    ∃ inst0 ∈ l, inst.id = inst0.id ∧ inst.canvas = inst0.canvas ∧
      (inst.live = true → inst0.live = true ∧ inst0.id ≠ i) := by
  obtain ⟨inst0, h0, heq⟩ := List.mem_map.mp h
  refine ⟨inst0, h0, ?_⟩
  by_cases hid : inst0.id = i
  · rw [← heq, if_pos hid]
    exact ⟨rfl, rfl, fun hlf => absurd hlf (by simp)⟩
  · rw [← heq, if_neg hid]
    exact ⟨rfl, rfl, fun hlf => ⟨hlf, hid⟩⟩

theorem nodup_id_append_fresh {l : List ChartInstance} {n : Nat}
    (hnd : (l.map ChartInstance.id).Nodup)
    (hlt : ∀ inst ∈ l, inst.id < n) (inst1 : ChartInstance) (h1 : inst1.id = n) :
    ((l ++ [inst1]).map ChartInstance.id).Nodup := by
  rw [List.map_append, List.map_cons, List.map_nil, List.nodup_append]
  refine ⟨hnd, List.nodup_singleton _, ?_⟩
  intro x hx hx1
  obtain ⟨inst0, h0, rfl⟩ := List.mem_map.mp hx
  rcases List.mem_singleton.mp hx1 with h
  exact absurd (h ▸ h1 ▸ hlt inst0 h0) (Nat.lt_irrefl _)

theorem chartsInv_createChart {s : ChartsState} (hs : ChartsInv s)
    (c k : String) (lb : List String) (ds : List (List Rat)) :
    ChartsInv (createChart s c k lb ds) := by
  obtain ⟨hlt, hnd, hlive⟩ := hs
  rcases hcase : lookupChart s.charts c with - | i
  · -- nothing was bound to canvas c yet
    refine ⟨?_, ?_, ?_⟩ <;> simp only [createChart, hcase]
    · intro inst hmem
      rcases List.mem_append.mp hmem with hmem | hmem
      · exact Nat.lt_succ_of_lt (hlt inst hmem)
      · rcases List.mem_singleton.mp hmem with rfl
        exact Nat.lt_succ_self _
    · exact nodup_id_append_fresh hnd hlt _ rfl
    · intro inst hmem hl
      rcases List.mem_append.mp hmem with hmem | hmem
      · have hlook := hlive inst hmem hl
        have hcanvas : inst.canvas ≠ c := fun hc => by
          rw [hc, hcase] at hlook
          exact Option.noConfusion hlook
        rw [lookup_setChart_ne _ _ _ _ hcanvas]
        exact hlook
      · rcases List.mem_singleton.mp hmem with rfl
        exact lookup_setChart_self s.charts c s.nextId
  · -- the instance bound to c is destroyed first
    refine ⟨?_, ?_, ?_⟩ <;> simp only [createChart, hcase]
    · intro inst hmem
      rcases List.mem_append.mp hmem with hmem | hmem
      · obtain ⟨inst0, h0, hid, -, -⟩ := mem_destroyChart hmem
        exact Nat.lt_succ_of_lt (hid ▸ hlt inst0 h0)
      · rcases List.mem_singleton.mp hmem with rfl
        exact Nat.lt_succ_self _
    · refine nodup_id_append_fresh ?_ ?_ _ rfl
      · rw [destroyChart_map_id]
        exact hnd
      · intro inst hmem
        obtain ⟨inst0, h0, hid, -, -⟩ := mem_destroyChart hmem
        exact hid ▸ hlt inst0 h0
    · intro inst hmem hl
      rcases List.mem_append.mp hmem with hmem | hmem
      · obtain ⟨inst0, h0, hid, hcv, hlimp⟩ := mem_destroyChart hmem
        obtain ⟨hl0, hne⟩ := hlimp hl
        have hlook := hlive inst0 h0 hl0
        have hcanvas : inst0.canvas ≠ c := fun hc => by
          rw [hc, hcase] at hlook
          exact hne (Option.some.inj hlook).symm
        rw [hcv, hid, lookup_setChart_ne _ _ _ _ hcanvas]
        exact hlook
      · rcases List.mem_singleton.mp hmem with rfl
        exact lookup_setChart_self s.charts c s.nextId

theorem chartsInv_applyChartOp {s : ChartsState} (hs : ChartsInv s) (op : ChartOp) :
    ChartsInv (applyChartOp s op) := by
  cases op with
  | pie c d => exact chartsInv_createChart hs c "pie" _ _
  | line c d => exact chartsInv_createChart hs c "line" _ _

theorem chartsInv_empty : ChartsInv ChartsState.empty := by
  refine ⟨?_, ?_, ?_⟩ <;> simp [ChartsState.empty]

theorem liveOn_length_le_one {s : ChartsState} (hs : ChartsInv s) (c : String) :
    (liveOn s c).length ≤ 1 := by
  obtain ⟨-, hnd, hlive⟩ := hs
  have hsub : (liveOn s c).Sublist s.instances := List.filter_sublist _
  have hnd' : ((liveOn s c).map ChartInstance.id).Nodup :=
    (hsub.map ChartInstance.id).nodup hnd
  have hsame : ∀ a ∈ liveOn s c, ∀ b ∈ liveOn s c, a.id = b.id := by
    intro a ha b hb
    obtain ⟨ha1, ha2⟩ := List.mem_filter.mp ha
    obtain ⟨hb1, hb2⟩ := List.mem_filter.mp hb
    simp only [Bool.and_eq_true, beq_iff_eq] at ha2 hb2
    have h1 := hlive a ha1 ha2.2
    have h2 := hlive b hb1 hb2.2
    rw [ha2.1] at h1
    rw [hb2.1] at h2
    exact Option.some.inj (h1.symm.trans h2)
  match hl : liveOn s c with
  | [] => simp
  | [a] => simp
  | a :: b :: t =>
      exfalso
      rw [hl] at hnd' hsame
      have hab : a.id = b.id := hsame a (by simp) b (by simp)
      simp only [List.map_cons, List.nodup_cons, List.mem_cons, List.mem_map] at hnd'
      exact hnd'.1 (Or.inl hab)

/-- C5. Across any sequence of pie- and line-chart render invocations
starting from the constructor state, at most one live (non-destroyed) chart
instance is ever bound to any canvas: each re-invocation destroys the
previously bound instance before creating the new one. -/
theorem chart_rebind_single_live (ops : List ChartOp) (c : String) :
    (liveOn (ops.foldl applyChartOp ChartsState.empty) c).length ≤ 1 := by
  have h : ∀ (l : List ChartOp) (s : ChartsState), ChartsInv s →
      ChartsInv (l.foldl applyChartOp s) := by
    intro l
    induction l with
    | nil => exact fun s hs => hs
    | cons op rest ih => exact fun s hs => ih _ (chartsInv_applyChartOp hs op)
  exact liveOn_length_le_one (h ops _ chartsInv_empty) c

/-- Modelling of `x.toFixed(2)`: decimal rendering of a rational with exactly two fraction
digits, rounding half away from zero.  Computed from numerator and
denominator by integer arithmetic. -/
def toFixed2 (q : Rat) : String :=
  let cents : Nat := (200 * q.num.natAbs + q.den) / (2 * q.den)
  let whole := cents / 100
  let frac := cents % 100
  (if q.num < 0 then "-" else "")
    ++ toString whole ++ "."
    ++ (if frac < 10 then "0" ++ toString frac else toString frac)

/-- The `/summary` payload consumed by `loadSummary`; each field may be absent
(`summary.x || 0`), and an `error` field makes the client treat the response
as a failure. -/
structure SummaryView where
  totalTransactions : Option Nat
  totalDeposits : Option Rat
  totalWithdrawals : Option Rat
  netAmount : Option Rat
  error : Option String
deriving Repr

/-- The four summary tiles (`total-transactions`, `total-income`,
`total-expenses`, `net-amount`) as the text written into them. -/
structure SummaryTiles where
  totalTransactions : String
  totalIncome : String
  totalExpenses : String
  netAmount : String
deriving DecidableEq, Repr

/-- The success path of `loadSummary`: each tile from its field, absent
fields defaulting to `0` (`summary.totalTransactions || 0`,
`$${(summary.totalDeposits || 0).toFixed(2)}`, …). -/
def renderSummary (s : SummaryView) : SummaryTiles :=
  { totalTransactions := toString (s.totalTransactions.getD 0),
    totalIncome := "$" ++ toFixed2 (s.totalDeposits.getD 0),
    totalExpenses := "$" ++ toFixed2 (s.totalWithdrawals.getD 0),
    netAmount := "$" ++ toFixed2 (s.netAmount.getD 0) }

/-- The catch-branch defaults of `loadSummary`. -/
def defaultSummaryTiles : SummaryTiles := ⟨"0", "$0.00", "$0.00", "$0.00"⟩

/-- The body of `FinanceTracker.loadSummary`: a failed fetch (`none`) or an
`error`-carrying payload falls back to the zero defaults, otherwise the
payload is rendered. -/
def loadSummary (resp : Option SummaryView) : SummaryTiles :=
  match resp with
  | none => defaultSummaryTiles
  | some s => if s.error.isSome then defaultSummaryTiles else renderSummary s

/-- C7. For every summary response, each absent field renders as its zero
default: `0` for the transaction count and `$0.00` for the three monetary
tiles. -/
theorem summary_missing_fields_default (s : SummaryView) :
    (s.totalTransactions = none → (loadSummary (some s)).totalTransactions = "0") ∧
    (s.totalDeposits = none → (loadSummary (some s)).totalIncome = "$0.00") ∧
    (s.totalWithdrawals = none → (loadSummary (some s)).totalExpenses = "$0.00") ∧
    (s.netAmount = none → (loadSummary (some s)).netAmount = "$0.00") := by
  rcases s with ⟨t, d, w, n, err⟩
  cases err with
  | none =>
      refine ⟨?_, ?_, ?_, ?_⟩ <;> rintro rfl <;>
        simp only [loadSummary, Option.isSome_none, Bool.false_eq_true, if_false,
          renderSummary, Option.getD_none] <;> decide
  | some e =>
      exact ⟨fun _ => rfl, fun _ => rfl, fun _ => rfl, fun _ => rfl⟩

/-- C7 witness. An all-absent summary response renders the four zero
defaults. -/
theorem summary_missing_fields_default_witness :
    (loadSummary (some ⟨none, none, none, none, none⟩)).totalTransactions = "0" ∧
    (loadSummary (some ⟨none, none, none, none, none⟩)).totalIncome = "$0.00" ∧
    (loadSummary (some ⟨none, none, none, none, none⟩)).totalExpenses = "$0.00" ∧
    (loadSummary (some ⟨none, none, none, none, none⟩)).netAmount = "$0.00" :=
  ⟨(summary_missing_fields_default ⟨none, none, none, none, none⟩).1 rfl,
   (summary_missing_fields_default ⟨none, none, none, none, none⟩).2.1 rfl,
   (summary_missing_fields_default ⟨none, none, none, none, none⟩).2.2.1 rfl,
   (summary_missing_fields_default ⟨none, none, none, none, none⟩).2.2.2 rfl⟩

/-- The base `this.apiBase` set in the `FinanceTracker` constructor. -/
def apiBase : String := "http://localhost:3000/api"

/-- The URL of a dashboard fetch in `fetchData` and `testConnection`. -/
def fetchUrl (endpoint : String) : String := apiBase ++ endpoint

/-- The hard-coded URL of the category-list fetch in `loadCategories`. -/
def categoriesUrl : String := "http://localhost:5000/api/categories"

/-- The hard-coded URL of the form submit POST. -/
def appendUrl : String := "http://localhost:5000/api/append"

/-- Every URL the client requests: the connectivity test, the five view
fetches behind the four dashboard views, the category-list fetch, and the
append POST. -/
def clientRequestUrls : List String :=
  [fetchUrl "/test", fetchUrl "/summary", fetchUrl "/spending-by-category",
   fetchUrl "/monthly-trends", fetchUrl "/calendar-data",
   fetchUrl "/recent-transactions", categoriesUrl, appendUrl]

/-- Predicate `strHasBase u b`: holds when URL `u` lies under base path `b`. -/
def strHasBase (u base : String) : Bool := base.toList.isPrefixOf u.toList

/-- C3. The client does NOT address all of its requests under one common
fixed base: the dashboard fetches go under `apiBase`
(`http://localhost:3000/api`), but the category-list fetch and the append
POST use `http://localhost:5000/api`, a different base — while the
connectivity-failure text of the same file directs the user to port 5000. -/
theorem client_requests_two_bases :
    (clientRequestUrls.all fun u => strHasBase u apiBase) = false ∧
    strHasBase categoriesUrl apiBase = false ∧
    strHasBase appendUrl apiBase = false ∧
    strHasBase categoriesUrl "http://localhost:5000/api" = true ∧
    strHasBase appendUrl "http://localhost:5000/api" = true ∧
    (clientRequestUrls.all fun u => strHasBase u (fetchUrl "")) = false ∧
    apiBase ≠ "http://localhost:5000/api" := by
  refine ⟨?_, ?_, ?_, ?_, ?_, ?_, ?_⟩ <;> decide

/-- The four form fields read at submit time
(`{title, category, amount, date}`). -/
structure FormData where
  title : String
  category : String
  amount : String
  date : String
deriving DecidableEq, Repr

/-- The three ways the append request can end: `data.success` true,
`data.success` false, or a thrown fetch/parse error. -/
inductive AppendOutcome where
  | success (message : String)
  | failure (message : String)
  | transportError
deriving DecidableEq, Repr

/-- The submit control. -/
structure SubmitButton where
  disabled : Bool
  label : String
deriving DecidableEq, Repr

/-- The control in its resting state (`Add Transaction`, enabled). -/
def idleButton : SubmitButton := ⟨false, "Add Transaction"⟩

/-- The control while the request runs (disabled, busy indicator). -/
def busyButton : SubmitButton := ⟨true, "<span class=\"loading\"></span>Adding..."⟩

/-- One observable step of the submit handler. -/
inductive SubmitStep where
  | showMsg (text kind : String)
  | setButton (b : SubmitButton)
  | networkPost (url : String) (body : FormData)
  | formReset
  | setDateToday
deriving DecidableEq, Repr

/-- The `transactionForm` submit handler as the trace of its observable
steps: reject the sentinel category with an error message and no request;
otherwise disable the control, POST to the append endpoint, show the
outcome's message (resetting the form and date on success), and re-enable the
control in the `finally` block. -/
def submitHandler (fd : FormData) (outcome : AppendOutcome) : List SubmitStep :=
  if fd.category = "NEW_CATEGORY" then
    [.showMsg "Please select a valid category" "error"]
  else
    [.setButton busyButton, .networkPost appendUrl fd]
      ++ (match outcome with
          | .success m => [.showMsg m "success", .formReset, .setDateToday]
          | .failure m => [.showMsg m "error"]
          | .transportError =>
              [.showMsg "Network error. Please check your connection." "error"])
      ++ [.setButton idleButton]

/-- The state of the submit control after a trace runs. -/
def buttonAfter (steps : List SubmitStep) (b : SubmitButton) : SubmitButton :=
  steps.foldl
    (fun b s =>
      match s with
      | .setButton b2 => b2
      | _ => b)
    b

/-- C6. A submission whose category equals the `NEW_CATEGORY` sentinel is
rejected client-side: the handler shows the validation error message and its
trace contains no network request, whatever the outcome would have been. -/
theorem sentinel_category_rejected (fd : FormData) (outcome : AppendOutcome)
    (h : fd.category = "NEW_CATEGORY") :
    SubmitStep.showMsg "Please select a valid category" "error"
        ∈ submitHandler fd outcome ∧
    ∀ url body, SubmitStep.networkPost url body ∉ submitHandler fd outcome := by
  rw [submitHandler.eq_def, if_pos h]
  exact ⟨List.mem_singleton_self _, fun url body h => by simp at h⟩

/-- C6 witness. A concrete sentinel-category submission issues no request
to the append endpoint. -/
theorem sentinel_category_rejected_witness :
    SubmitStep.networkPost appendUrl ⟨"Lunch", "NEW_CATEGORY", "12.5", "2024-03-15"⟩
      ∉ submitHandler ⟨"Lunch", "NEW_CATEGORY", "12.5", "2024-03-15"⟩
          AppendOutcome.transportError :=
  (sentinel_category_rejected ⟨"Lunch", "NEW_CATEGORY", "12.5", "2024-03-15"⟩
      AppendOutcome.transportError rfl).2 appendUrl _

/-- C8. Every validated submission disables the control with the busy
indicator before the request and, for every outcome, ends by re-enabling it
with its original label — the trace is the busy/post prefix, button-untouched
middle steps, and the final re-enable, so the control is never left
disabled. -/
theorem submit_control_reenabled (fd : FormData) (outcome : AppendOutcome)
    (h : fd.category ≠ "NEW_CATEGORY") :
    (∃ mid, submitHandler fd outcome =
        [SubmitStep.setButton busyButton, SubmitStep.networkPost appendUrl fd]
          ++ mid ++ [SubmitStep.setButton idleButton] ∧
        ∀ b, SubmitStep.setButton b ∉ mid) ∧
    buttonAfter (submitHandler fd outcome) idleButton = idleButton := by
  rw [submitHandler.eq_def, if_neg h]
  cases outcome with
  | success m =>
      exact ⟨⟨[SubmitStep.showMsg m "success", SubmitStep.formReset,
        SubmitStep.setDateToday], rfl, fun b => by simp⟩, rfl⟩
  | failure m =>
      exact ⟨⟨[SubmitStep.showMsg m "error"], rfl, fun b => by simp⟩, rfl⟩
  | transportError =>
      exact ⟨⟨[SubmitStep.showMsg "Network error. Please check your connection."
        "error"], rfl, fun b => by simp⟩, rfl⟩

/-- C8 witness. A concrete validated submission (server reports success)
leaves the control enabled with its original label. -/
theorem submit_control_reenabled_witness :
    buttonAfter
        (submitHandler ⟨"Lunch", "Food", "12.5", "2024-03-15"⟩
          (AppendOutcome.success "Added"))
        idleButton = idleButton :=
  (submit_control_reenabled ⟨"Lunch", "Food", "12.5", "2024-03-15"⟩
      (AppendOutcome.success "Added") (by decide)).2

/-- Modelling of `s.trim()`: strip leading and trailing whitespace. -/
def jsTrim (s : String) : String :=
  ⟨((s.toList.dropWhile Char.isWhitespace).reverse.dropWhile
      Char.isWhitespace).reverse⟩

/-- One `<option>` of the category select. -/
structure SelectOption where
  value : String
  text : String
deriving DecidableEq, Repr

/-- The category select: its option list and current value. -/
structure SelectState where
  options : List SelectOption
  value : String
deriving DecidableEq, Repr

/-- The sentinel option appended last by `loadCategories`. -/
def newCategoryOption : SelectOption := ⟨"NEW_CATEGORY", "+ Add New Category"⟩

/-- The success branch of `loadCategories`: the placeholder option, one
option per known category, and the sentinel appended last. -/
def populateCategories (cats : List String) : List SelectOption :=
  { value := "", text := "Select a category" }
    :: cats.map (fun c => { value := c, text := c }) ++ [newCategoryOption]

/-- Modelling of `this.insertBefore(option, this.lastElementChild)`: insert immediately
before the last element (append when the list is empty, as `insertBefore`
with a null reference does). -/
def insertBeforeLast : List SelectOption → SelectOption → List SelectOption
  | [], o => [o]
  | [x], o => [o, x]
  | x :: xs, o => x :: insertBeforeLast xs o

/-- The `categorySelect` change handler: when the sentinel is selected,
prompt for a name; a non-blank answer becomes a new selected option inserted
before the last element, otherwise the value is reset to the empty string
(`promptResult` is `none` when the prompt is dismissed). -/
def categoryChangeHandler (sel : SelectState) (promptResult : Option String) :
    SelectState :=
  if sel.value = "NEW_CATEGORY" then
    match promptResult with
    | some s =>
        if s != "" && jsTrim s != "" then
          { options := insertBeforeLast sel.options ⟨jsTrim s, jsTrim s⟩,
            value := jsTrim s }
        else { sel with value := "" }
    | none => { sel with value := "" }
  else sel

/-- A freshly populated select with the sentinel currently chosen. -/
def sentinelSelect : SelectState :=
  ⟨populateCategories [], "NEW_CATEGORY"⟩

/-- C9 counterexample. Entering the string `NEW_CATEGORY` itself at the
prompt leaves the select's value equal to the sentinel after the change
handler completes, so the value is not "never the sentinel". -/
theorem change_handler_sentinel_counterexample :
    (categoryChangeHandler sentinelSelect (some "NEW_CATEGORY")).value
      = "NEW_CATEGORY" := by decide

/-- C9 amended. After the change handler runs on a sentinel-valued
select, the value is the trimmed prompt answer (when non-blank) or the empty
string (when the prompt is dismissed or blank) — it equals the sentinel only
when the entered name itself trims to `NEW_CATEGORY`; and the empty string
passes the submit validation, so an empty-category submission still issues
the append request. -/
theorem change_handler_resolves_sentinel
    (sel : SelectState) (p : Option String) (hv : sel.value = "NEW_CATEGORY")
    (fd : FormData) (outcome : AppendOutcome) (hfd : fd.category = "") :
    ((∃ s, p = some s ∧ jsTrim s ≠ "" ∧
        (categoryChangeHandler sel p).value = jsTrim s) ∨
      (categoryChangeHandler sel p).value = "") ∧
    SubmitStep.networkPost appendUrl fd ∈ submitHandler fd outcome := by
  constructor
  · rw [categoryChangeHandler.eq_def, if_pos hv]
    cases p with
    | none => exact Or.inr rfl
    | some s =>
        by_cases hc : (s != "" && jsTrim s != "") = true
        · refine Or.inl ⟨s, rfl, ?_, ?_⟩
          · have h2 := hc
            simp only [Bool.and_eq_true, bne_iff_ne] at h2
            exact h2.2
          · simp [hc]
        · right
          simp [hc]
  · rw [submitHandler.eq_def, if_neg (by rw [hfd]; decide)]
    simp

/-- C9 witness. A concrete prompted category resolves the sentinel, and a
concrete empty-category submission reaches the network. -/
theorem change_handler_resolves_sentinel_witness :
    SubmitStep.networkPost appendUrl ⟨"Lunch", "", "12.5", "2024-03-15"⟩
      ∈ submitHandler ⟨"Lunch", "", "12.5", "2024-03-15"⟩
          (AppendOutcome.failure "Missing category") :=
  (change_handler_resolves_sentinel sentinelSelect (some "Dining") rfl
      ⟨"Lunch", "", "12.5", "2024-03-15"⟩
      (AppendOutcome.failure "Missing category") rfl).2

theorem insertBeforeLast_getLast? (opts : List SelectOption) (o : SelectOption) :
    opts ≠ [] → (insertBeforeLast opts o).getLast? = opts.getLast? := by
  induction opts with
  | nil => exact fun h => absurd rfl h
  | cons x rest ih =>
      rintro -
      cases rest with
      | nil => rfl
      | cons y t =>
          have h2 := ih (by simp)
          rcases hsh : insertBeforeLast (y :: t) o with - | ⟨z, zs⟩
          · cases t <;> simp [insertBeforeLast] at hsh
          · show (x :: insertBeforeLast (y :: t) o).getLast? = _
            rw [hsh, List.getLast?_cons_cons, ← hsh, h2, List.getLast?_cons_cons]

/-- One user interaction with the category select: pick a value (possibly the
sentinel), upon which the change handler runs with the given prompt answer. -/
def selectStep (sel : SelectState) (op : String × Option String) : SelectState :=
  categoryChangeHandler { sel with value := op.1 } op.2

theorem selectStep_getLast? (sel : SelectState) (op : String × Option String)
    (h : sel.options.getLast? = some newCategoryOption) :
    (selectStep sel op).options.getLast? = some newCategoryOption := by
  have hne : sel.options ≠ [] := by
    intro hnil
    rw [hnil] at h
    exact Option.noConfusion h
  rw [selectStep, categoryChangeHandler.eq_def]
  by_cases hv : op.1 = "NEW_CATEGORY"
  · rw [if_pos hv]
    cases op.2 with
    | none => exact h
    | some s =>
        by_cases hc : (s != "" && jsTrim s != "") = true
        · simp only [hc, if_true]
          rw [insertBeforeLast_getLast? _ _ hne]
          exact h
        · simp only [hc, if_false]
          exact h
  · rw [if_neg hv]
    exact h

/-- C10. The sentinel option stays the last option of the category select
after every operation: population appends it last, and each change-handler
interaction either leaves the options alone or inserts the new category
immediately before the last element, never displacing the sentinel. -/
theorem sentinel_option_remains_last (cats : List String)
    (ops : List (String × Option String)) :
    ((ops.foldl selectStep
        { options := populateCategories cats, value := "" }).options).getLast?
      = some newCategoryOption := by
  have base : (populateCategories cats).getLast? = some newCategoryOption := by
    show ((({ value := "", text := "Select a category" } : SelectOption)
        :: cats.map (fun c => { value := c, text := c }))
          ++ [newCategoryOption]).getLast? = some newCategoryOption
    exact List.getLast?_concat _
  have h : ∀ (l : List (String × Option String)) (sel : SelectState),
      sel.options.getLast? = some newCategoryOption →
      ((l.foldl selectStep sel).options).getLast? = some newCategoryOption := by
    intro l
    induction l with
    | nil => exact fun sel hsel => hsel
    | cons op rest ih => exact fun sel hsel => ih _ (selectStep_getLast? sel op hsel)
  exact h ops _ base

/-- Modelling of `Math.abs` on the script's rational amounts. -/
def ratAbs (q : Rat) : Rat := if q < 0 then -q else q

/-- A `/recent-transactions` entry as `renderTransactions` reads it; each
field may be absent (`transaction.store || 'Unknown'`, …). -/
structure Transaction where
  store : Option String
  category : Option String
  date : Option String
  amount : Option Rat
  type : String
deriving Repr

/-- The amount text of one rendered transaction:
`${transaction.amount >= 0 ? '+' : ''}$${Math.abs(transaction.amount || 0).toFixed(2)}`
(an absent amount compares as NaN, so it gets no leading plus). -/
def renderTransactionAmount (t : Transaction) : String :=
  (match t.amount with
    | some a => if 0 ≤ a then "+" else ""
    | none => "")
    ++ "$" ++ toFixed2 (ratAbs (t.amount.getD 0))

/-- The four texts of one rendered `transaction-item`. -/
structure TransactionRow where
  store : String
  category : String
  date : String
  amount : String
deriving Repr

/-- One entry of the recent-transactions list. -/
def renderTransactionItem (t : Transaction) : TransactionRow :=
  { store := t.store.getD "Unknown",
    category := t.category.getD "Uncategorized",
    date := t.date.getD "N/A",
    amount := renderTransactionAmount t }

/-- What `renderTransactions` leaves in the `recent-transactions` region:
the placeholder paragraph for an empty list, otherwise one row per entry. -/
inductive TransactionsRender where
  | placeholder
  | items (rows : List TransactionRow)
deriving Repr

/-- The body of `FinanceTracker.renderTransactions`: an empty list renders exactly the
`No transactions found` placeholder and no items. -/
def renderTransactions (ts : List Transaction) : TransactionsRender :=
  if ts.isEmpty then .placeholder else .items (ts.map renderTransactionItem)

/-- The outcome of every fetch `init` performs: the connectivity test plus
the five view payloads (`none` is a failed fetch or error payload). -/
structure ApiResponses where
  connectionOk : Bool
  summary : Option SummaryView
  spendingByCategory : Option CategoryBreakdown
  monthlyTrends : Option MonthlyTrend
  calendarData : Option (List CalendarEvent)
  recentTransactions : Option (List Transaction)

/-- The dashboard regions `init` writes: summary tiles, chart state, calendar
grid, recent-transactions region (`none` when never rendered, still showing
its initial content) and the page-level error banner. -/
structure DashboardState where
  summaryTiles : SummaryTiles
  charts : ChartsState
  calendar : Option (List CalendarCell)
  recent : Option TransactionsRender
  errorBanner : Option String

/-- The tiles as `showLoading` leaves them. -/
def loadingTiles : SummaryTiles :=
  ⟨"Loading...", "Loading...", "Loading...", "Loading..."⟩

/-- The body of `FinanceTracker.loadCharts`: both fetches share one `try`, so a failed
category fetch renders neither chart and a failed trends fetch still renders
the pie chart; the `catch` only logs, rendering nothing in place of the
failed chart. -/
def loadCharts (s : ChartsState) (catR : Option CategoryBreakdown)
    (trR : Option MonthlyTrend) : ChartsState :=
  match catR with
  | none => s
  | some cd =>
      let s2 := createPieChart s "spending-chart" cd
      match trR with
      | none => s2
      | some td => createLineChart s2 "trends-chart" td

/-- The body of `FinanceTracker.init`: show the loading state; if the connectivity test
fails, stop with the page-level error banner; otherwise run the four guarded
steps in order — summary (zero-default fallback), charts (log-only
fallback), calendar (rendered with `[]` on failure), recent transactions
(rendered with `[]`, i.e. the placeholder, on failure). -/
def initDashboard (now : JsDate) (r : ApiResponses) : DashboardState :=
  let s0 : DashboardState :=
    { summaryTiles := loadingTiles, charts := ChartsState.empty,
      calendar := none, recent := none, errorBanner := none }
  if r.connectionOk then
    let s1 := { s0 with summaryTiles := loadSummary r.summary }
    let s2 := { s1 with
      charts := loadCharts s1.charts r.spendingByCategory r.monthlyTrends }
    let s3 := { s2 with
      calendar := some (renderCalendar now (r.calendarData.getD [])) }
    { s3 with recent := some (renderTransactions (r.recentTransactions.getD [])) }
  else
    { s0 with
        errorBanner := some "Failed to load dashboard data. Please check if the server is running." }

/-- A run in which only the chart data fetch fails. -/
def chartsFailureResponses : ApiResponses :=
  { connectionOk := true,
    summary := some ⟨some 3, some 100, some 40, some 60, none⟩,
    spendingByCategory := none,
    monthlyTrends := some ⟨some ["Jan"], some [100], some [40]⟩,
    calendarData := some [],
    recentTransactions := some [] }

/-- C2 counterexample. When only the chart-data fetch fails, no chart
instance is created at all — the charts region gets no empty-chart fallback
render (the failure is only logged) — while the other views render
normally. -/
theorem charts_failure_no_fallback_render :
    (initDashboard ⟨2024, 2, 15⟩ chartsFailureResponses).charts.instances = [] ∧
    (initDashboard ⟨2024, 2, 15⟩ chartsFailureResponses).calendar
      = some (renderCalendar ⟨2024, 2, 15⟩ []) ∧
    (initDashboard ⟨2024, 2, 15⟩ chartsFailureResponses).errorBanner = none :=
  ⟨rfl, rfl, rfl⟩

/-- C2 amended. After a successful connectivity test the four steps are
fault-isolated — each region's final content is a function of that view's own
response alone, whatever happens to the others — and a failed summary,
calendar, or recent fetch is recovered with its zero/empty fallback (zeroed
tiles, empty calendar, placeholder message).  A failed charts step, however,
is only logged: no chart is rendered at all, not an empty-chart fallback. -/
theorem dashboard_views_fault_isolated (now : JsDate) (r : ApiResponses)
    (hconn : r.connectionOk = true) :
    (initDashboard now r).summaryTiles = loadSummary r.summary ∧
    (initDashboard now r).charts
      = loadCharts ChartsState.empty r.spendingByCategory r.monthlyTrends ∧
    (initDashboard now r).calendar
      = some (renderCalendar now (r.calendarData.getD [])) ∧
    (initDashboard now r).recent
      = some (renderTransactions (r.recentTransactions.getD [])) ∧
    (initDashboard now r).errorBanner = none ∧
    (r.summary = none → (initDashboard now r).summaryTiles = defaultSummaryTiles) ∧
    (r.calendarData = none →
      (initDashboard now r).calendar = some (renderCalendar now [])) ∧
    (r.recentTransactions = none →
      (initDashboard now r).recent = some TransactionsRender.placeholder) ∧
    (r.spendingByCategory = none →
      (initDashboard now r).charts = ChartsState.empty) := by
  rw [initDashboard.eq_def, if_pos hconn]
  refine ⟨rfl, rfl, rfl, rfl, rfl, ?_, ?_, ?_, ?_⟩
  · intro h
    simp only [h]
    rfl
  · intro h
    simp only [h]
    rfl
  · intro h
    simp only [h]
    rfl
  · intro h
    simp only [h, loadCharts]

/-- Witness for C2: in the charts-failure run the summary region still equals
the summary view's own rendering. -/
theorem dashboard_views_fault_isolated_witness :
    (initDashboard ⟨2024, 2, 15⟩ chartsFailureResponses).summaryTiles
      = loadSummary chartsFailureResponses.summary :=
  (dashboard_views_fault_isolated ⟨2024, 2, 15⟩ chartsFailureResponses rfl).1
